import Mathlib

/-!
Shallow embedding of the pythovolve repository (src/pythovolve/individuals.py and
src/pythovolve/algorithm.py), together with theorems settling the frozen claims
about its specification.

Scores are `float` in the source; the code only ever compares scores and multiplies
or divides the strategy parameter `sigma`, so scores and `sigma` are modelled as
exact rationals (`ℚ`).  Randomness (selectors, crossover, mutation, `random.choice`)
is modelled by oracle functions indexed by the call position, which covers every
deterministic-or-random behaviour of the external operators.
-/

namespace Pythovolve

/-! ### individuals.py: comparison protocol (`Individual.__lt__` / `__eq__`) -/

/-- `Individual` as seen by the comparison protocol: `_score` starts as `None`
(`none`) and the phenotype is opaque.  `oid` is the CPython object identity,
which the `==` operator falls back to when both `__eq__` calls return
`NotImplemented`. -/
structure CmpInd (Ph : Type) where
  oid : Nat
  phenotype : Ph
  score : Option ℚ
deriving Repr, DecidableEq

/-- `Individual.__lt__` (individuals.py lines 36-42): compares scores; reading an
unassigned score raises `ValueError`, which the method catches and converts to
`NotImplemented` (modelled as `none`). -/
def indLt {Ph : Type} (a b : CmpInd Ph) : Option Bool :=
  match a.score, b.score with
  | some x, some y => some (decide (x < y))
  | _, _ => none

/-- `Individual.__eq__` (individuals.py lines 44-50): same shape as `__lt__`. -/
def indEq {Ph : Type} (a b : CmpInd Ph) : Option Bool :=
  match a.score, b.score with
  | some x, some y => some (decide (x = y))
  | _, _ => none

/-- Python `a == b` on two `Individual`s: try `a.__eq__(b)`, then the reflected
`b.__eq__(a)`; when both return `NotImplemented`, CPython falls back to object
identity.  This operator can therefore never raise. -/
def pyEq {Ph : Type} (a b : CmpInd Ph) : Bool :=
  match indEq a b with
  | some r => r
  | none =>
    match indEq b a with
    | some r => r
    | none => decide (a.oid = b.oid)

/-- `__gt__` as synthesized by `functools.total_ordering` from `__lt__`:
`not (self < other) and self != other`, propagating `NotImplemented`. -/
def indGt {Ph : Type} (a b : CmpInd Ph) : Option Bool :=
  (indLt a b).map (fun r => !r && !(pyEq a b))

/-- `__le__` as synthesized by `functools.total_ordering`:
`self < other or self == other`, propagating `NotImplemented`. -/
def indLe {Ph : Type} (a b : CmpInd Ph) : Option Bool :=
  (indLt a b).map (fun r => r || pyEq a b)

/-- `__ge__` as synthesized by `functools.total_ordering`:
`not (self < other)`, propagating `NotImplemented`. -/
def indGe {Ph : Type} (a b : CmpInd Ph) : Option Bool :=
  (indLt a b).map (fun r => !r)

/-- Python `a < b`: `a.__lt__(b)`, then the reflected `b.__gt__(a)`; if both
return `NotImplemented`, a `TypeError` is raised. -/
def pyLt {Ph : Type} (a b : CmpInd Ph) : Except String Bool :=
  match indLt a b with
  | some r => Except.ok r
  | none =>
    match indGt b a with
    | some r => Except.ok r
    | none => Except.error "TypeError: unorderable types"

/-- Python `a > b`: `a.__gt__(b)`, then the reflected `b.__lt__(a)`. -/
def pyGtOp {Ph : Type} (a b : CmpInd Ph) : Except String Bool :=
  match indGt a b with
  | some r => Except.ok r
  | none =>
    match indLt b a with
    | some r => Except.ok r
    | none => Except.error "TypeError: unorderable types"

/-- Python `a <= b`: `a.__le__(b)`, then the reflected `b.__ge__(a)`. -/
def pyLeOp {Ph : Type} (a b : CmpInd Ph) : Except String Bool :=
  match indLe a b with
  | some r => Except.ok r
  | none =>
    match indGe b a with
    | some r => Except.ok r
    | none => Except.error "TypeError: unorderable types"

/-- Python `a >= b`: `a.__ge__(b)`, then the reflected `b.__le__(a)`. -/
def pyGeOp {Ph : Type} (a b : CmpInd Ph) : Except String Bool :=
  match indGe a b with
  | some r => Except.ok r
  | none =>
    match indLe b a with
    | some r => Except.ok r
    | none => Except.error "TypeError: unorderable types"

/-- Whether an `Except` computation succeeded. -/
def isOkB {ε α : Type} : Except ε α → Bool
  | Except.ok _ => true
  | Except.error _ => false

/-! ### individuals.py: `clone` and in-place phenotype mutation (heap model)

Python lists are heap objects; the three `clone` implementations
(`BinaryIndividual.clone`, `PathIndividual.clone`, `RealValueIndividual.clone`)
are all `type(self)(self.phenotype[:])`, i.e. they allocate a fresh list holding
a copy of the phenotype (`RealValueIndividual` additionally passes its immutable
`value_range` tuple along).  The heap is modelled as a list of lists, addressed
by position; an individual holds a reference (address) to its phenotype. -/

/-- Heap of list objects; an address is an index into the heap. -/
abbrev Store (α : Type) : Type := List (List α)

/-- A reference to a phenotype list on the heap. -/
structure Ref where
  addr : Nat
deriving Repr, DecidableEq

/-- Read a phenotype list through its reference. -/
def readPh {α : Type} (st : Store α) (r : Ref) : List α :=
  List.getD st r.addr []

/-- `clone()` = `type(self)(self.phenotype[:])`: allocate a fresh list object
containing a copy of the phenotype and return a reference to it. -/
def cloneInd {α : Type} (st : Store α) (r : Ref) : Store α × Ref :=
  (st ++ [readPh st r], ⟨st.length⟩)

/-- `BinaryIndividual.clone` (individuals.py lines 57-58): phenotype is a list
of booleans. -/
def binaryClone (st : Store Bool) (r : Ref) : Store Bool × Ref := cloneInd st r

/-- `PathIndividual.clone` (individuals.py lines 72-73): phenotype is a list of
city indices. -/
def pathClone (st : Store Int) (r : Ref) : Store Int × Ref := cloneInd st r

/-- `RealValueIndividual.clone` (individuals.py lines 88-89): phenotype is a
list of reals (modelled as rationals); the immutable `value_range` tuple plays
no part in phenotype aliasing. -/
def realValueClone (st : Store ℚ) (r : Ref) : Store ℚ × Ref := cloneInd st r

/-- In-place element assignment `individual.phenotype[i] = v`. -/
def setElem {α : Type} (st : Store α) (r : Ref) (i : Nat) (v : α) : Store α :=
  List.set st r.addr ((readPh st r).set i v)

/-! ### individuals.py: `BinaryIndividual.create_random` -/

/-- The Python values involved in `BinaryIndividual.create_random`:
booleans, lists, and the generator expression
`(random.choice([True, False]) for _ in range(size))`, which has no `__len__`. -/
inductive PyVal : Type
  | pybool : Bool → PyVal
  | pylist : List PyVal → PyVal
  | pygen : Nat → PyVal

/-- Python `len`: defined for lists, raises `TypeError` for generators. -/
def pyLen : PyVal → Except String Nat
  | PyVal.pylist xs => Except.ok xs.length
  | PyVal.pygen _ => Except.error "object of type generator has no len()"
  | PyVal.pybool _ => Except.error "object of type bool has no len()"

/-- `random.choice(seq)`: draws `seq[k]` for a random index `k < len(seq)`
(the random draw is the oracle argument `rand`); it calls `len(seq)` first, so a
generator argument raises `TypeError` before any element is drawn. -/
def randomChoice (rand : Nat) : PyVal → Except String PyVal
  | PyVal.pylist xs =>
    if xs.length = 0 then Except.error "Cannot choose from an empty sequence"
    else Except.ok (xs.getD (rand % xs.length) (PyVal.pybool false))
  | PyVal.pygen n =>
    match pyLen (PyVal.pygen n) with
    | Except.error e => Except.error e
    | Except.ok _ => Except.error "unreachable"
  | PyVal.pybool b =>
    match pyLen (PyVal.pybool b) with
    | Except.error e => Except.error e
    | Except.ok _ => Except.error "unreachable"

/-- `BinaryIndividual.create_random(size)` (individuals.py lines 60-62):
`cls([random.choice([True, False] for _ in range(size))])` — note the brackets:
`random.choice` is applied to the *generator expression* itself, and its single
result (were it to exist) would be wrapped in a one-element list. -/
def binaryCreateRandom (rand : Nat) (size : Nat) : Except String PyVal :=
  match randomChoice rand (PyVal.pygen size) with
  | Except.ok c => Except.ok (PyVal.pylist [c])
  | Except.error e => Except.error e

/-! ### algorithm.py: data model

Inside the algorithms every population is fully scored immediately after being
set (the `population` setter scores each individual), so the algorithm-level
individual carries its score; `score_individual` of a deterministic `Problem`
is a function `f` from phenotype to score and overwrites the score field. -/

/-- An individual as handled by the algorithms: phenotype plus (assigned) score. -/
structure Ind (Ph : Type) where
  phenotype : Ph
  score : ℚ
deriving Repr, DecidableEq

/-- `problem.score_individual(individual)`: assigns the score computed from the
phenotype (a deterministic `Problem` is the function `f`). -/
def scoreInd {Ph : Type} (f : Ph → ℚ) (x : Ind Ph) : Ind Ph :=
  ⟨x.phenotype, f x.phenotype⟩

/-- The comparison key used by `sorted`/`min` on scored individuals
(`Individual.__lt__` compares scores; both operands are scored here). -/
def scoreLE {Ph : Type} (a b : Ind Ph) : Bool :=
  decide (a.score ≤ b.score)

/-- Python `sorted(population)`: a stable ascending sort by score.  Any two
stable sorts with respect to the same total preorder agree, so CPython's
Timsort is modelled by the stable `List.mergeSort`. -/
def pySorted {Ph : Type} (l : List (Ind Ph)) : List (Ind Ph) :=
  List.mergeSort l scoreLE

/-- Python `min(population)`: keeps the first element and replaces it whenever a
later element compares strictly smaller, so the first minimal element wins;
`min` of an empty list raises `ValueError` (modelled as `none`). -/
def pyMin {Ph : Type} : List (Ind Ph) → Option (Ind Ph)
  | [] => none
  | x :: xs => some (xs.foldl (fun acc y => if y.score < acc.score then y else acc) x)

/-- The mutable state of `EvolutionAlgorithm` shared by both strategies
(algorithm.py lines 29-46): `best`, `current_best`, the population, the two
score histories, the generation counter and the stop flag. -/
structure BaseState (Ph : Type) where
  best : Option (Ind Ph)
  currentBest : Option (Ind Ph)
  population : List (Ind Ph)
  bestScores : List ℚ
  currentBestScores : List ℚ
  generation : Nat
  stopEvolving : Bool
deriving Repr, DecidableEq

/-- The `population` setter (algorithm.py lines 57-68): stores the population,
scores every individual, recomputes `current_best = min(population)` and
replaces `best` only when it is unset or the new current best is strictly
smaller.  (On an empty population Python's `min` would raise; the model records
`currentBest = none` there, a case no claim exercises.) -/
def setPopulation {Ph : Type} (f : Ph → ℚ) (s : BaseState Ph) (pop : List (Ind Ph)) :
    BaseState Ph :=
  let scored := pop.map (scoreInd f)
  match pyMin scored with
  | none => { s with population := scored, currentBest := none }
  | some cb =>
    let newBest :=
      match s.best with
      | none => cb
      | some b => if cb.score < b.score then cb else b
    { s with population := scored, currentBest := some cb, best := some newBest }

/-- Score of an optional individual.  At the points where this is used the
individual is always present (the setter ran on a nonempty population; Python
would raise an `AttributeError` on `None`). -/
def optScore {Ph : Type} (o : Option (Ind Ph)) : ℚ :=
  (o.map Ind.score).getD 0

/-- The shared tail of both `evolve_once` implementations (algorithm.py lines
147-152 and 232-237): append `best.score` and `current_best.score` to the
histories, increment the generation counter, and set the stop flag once the
counter reaches `max_generations`. -/
def finishGeneration {Ph : Type} (maxGen : Nat) (s : BaseState Ph) : BaseState Ph :=
  let s1 := { s with
    bestScores := s.bestScores ++ [optScore s.best],
    currentBestScores := s.currentBestScores ++ [optScore s.currentBest],
    generation := s.generation + 1 }
  if maxGen ≤ s1.generation then { s1 with stopEvolving := true } else s1

/-- Indexed map, used to model list comprehensions whose element-wise operator
is an oracle that may answer differently on every call. -/
def mapI {α β : Type} (g : Nat → α → β) : Nat → List α → List β
  | _, [] => []
  | i, x :: xs => g i x :: mapI g (i + 1) xs

/-! ### algorithm.py: `EvolutionAlgorithm.__init__` (lines 24-51) -/

/-- `EvolutionAlgorithm.__init__`: rejects `population_size == 0` with
`ValueError("Initial population is empty")`, then builds the initial population
as `[self.problem.create_individual() for _ in range(300)]` — a literal `300`,
independent of `population_size` — and assigns it through the scoring setter.
`create` is the call-indexed oracle for `problem.create_individual()`; the
placeholder score `0` on a fresh (unscored) individual is immediately
overwritten by the setter. -/
def initAlgorithm {Ph : Type} (create : Nat → Ph) (f : Ph → ℚ)
    (populationSize : Int) : Except String (BaseState Ph) :=
  if populationSize = 0 then Except.error "Initial population is empty"
  else
    let s0 : BaseState Ph := ⟨none, none, [], [], [], 0, false⟩
    Except.ok (setPopulation f s0 ((List.range 300).map (fun i => ⟨create i, 0⟩)))

/-- `EvolutionStrategy.__init__` (algorithm.py lines 199-217): raises
`ValueError` whenever `num_children > population_size`, before the base-class
constructor runs; otherwise the base construction plus `sigma = sigma_start`. -/
def initEvolutionStrategy {Ph : Type} (create : Nat → Ph) (f : Ph → ℚ)
    (populationSize : Int) (numChildren : Int) (sigmaStart : ℚ) :
    Except String (BaseState Ph × ℚ) :=
  if populationSize < numChildren then
    Except.error "Number of children larger than number of parents"
  else
    match initAlgorithm create f populationSize with
    | Except.error e => Except.error e
    | Except.ok s => Except.ok (s, sigmaStart)

/-! ### algorithm.py: `GeneticAlgorithm` (lines 108-179) -/

/-- `GeneticAlgorithm._split_elites` (lines 157-165): with `num_elites == 0`
return `([], population)`; otherwise sort the population (stable ascending by
score) and split it after the first `num_elites` members. -/
def splitElites {Ph : Type} (numElites : Nat) (pop : List (Ind Ph)) :
    List (Ind Ph) × List (Ind Ph) :=
  if numElites = 0 then ([], pop)
  else ((pySorted pop).take numElites, (pySorted pop).drop numElites)

/-- `GeneticAlgorithm._generate_children` (lines 167-179): `population_size / 2`
times, draw a father and a mother by two separate selector calls and append
both children of `crossover(father, mother)`; if `population_size` is odd, one
extra pair is generated and only its first child kept.  `sel` is the
call-indexed selector oracle and `cross` the per-iteration crossover oracle
(the `Crossover` contract returns exactly two children). -/
def generateChildren {Ph : Type} (sel : Nat → List (Ind Ph) → Ind Ph)
    (cross : Nat → Ind Ph → Ind Ph → Ind Ph × Ind Ph)
    (populationSize : Nat) (pop : List (Ind Ph)) : List (Ind Ph) :=
  let children := (List.range (populationSize / 2)).flatMap (fun i =>
    let father := sel (2 * i) pop
    let mother := sel (2 * i + 1) pop
    let c := cross i father mother
    [c.1, c.2])
  if children.length < populationSize then
    let father := sel (2 * (populationSize / 2)) pop
    let mother := sel (2 * (populationSize / 2) + 1) pop
    children ++ [(cross (populationSize / 2) father mother).1]
  else children

/-- `GeneticAlgorithm.evolve_once` (lines 136-155): split off the elites,
generate children from the *whole* current population, mutate every child
(never the elites), assign `mutated children + elites` through the scoring
setter, then the shared generation bookkeeping.  `mutate` is the call-indexed
mutator oracle. -/
def gaEvolveOnce {Ph : Type} (f : Ph → ℚ) (sel : Nat → List (Ind Ph) → Ind Ph)
    (cross : Nat → Ind Ph → Ind Ph → Ind Ph × Ind Ph)
    (mutate : Nat → Ind Ph → Ind Ph)
    (populationSize numElites maxGen : Nat) (s : BaseState Ph) : BaseState Ph :=
  let elites := (splitElites numElites s.population).1
  let children := generateChildren sel cross populationSize s.population
  let s1 := setPopulation f s (mapI mutate 0 children ++ elites)
  finishGeneration maxGen s1

/-! ### algorithm.py: `EvolutionStrategy` (lines 182-262) -/

/-- `EvolutionStrategy._generate_children` (lines 249-262): `num_children`
times, select a parent, clone it (the clone is unscored, so the mutator acts on
the phenotype with strength `sigma`), score the child, and count a success when
the child's score is strictly better than its parent's pre-mutation score. -/
def esGenerateChildren {Ph : Type} (sel : Nat → List (Ind Ph) → Ind Ph)
    (mutate : Nat → Ph → ℚ → Ph) (f : Ph → ℚ)
    (numChildren : Nat) (sigma : ℚ) (pop : List (Ind Ph)) : List (Ind Ph) × Nat :=
  (List.range numChildren).foldl
    (fun acc i =>
      let parent := sel i pop
      let childPh := mutate i parent.phenotype sigma
      let child : Ind Ph := ⟨childPh, f childPh⟩
      (acc.1 ++ [child], if child.score < parent.score then acc.2 + 1 else acc.2))
    ([], 0)

/-- `EvolutionStrategy._adapt_sigma` (lines 242-247): if
`num_success > 1/5 * num_children` multiply sigma by the multiplier, otherwise
divide by it.  The Python comparison is carried out in floats, which agrees
with the exact rational comparison for all relevant integer magnitudes; Python
raises `ZeroDivisionError` when dividing by a zero multiplier. -/
def adaptSigma (numChildren : Nat) (sigmaMultiplier : ℚ) (sigma : ℚ)
    (numSuccess : Nat) : Except String ℚ :=
  if (numSuccess : ℚ) > 1 / 5 * (numChildren : ℚ) then
    Except.ok (sigma * sigmaMultiplier)
  else if sigmaMultiplier = 0 then Except.error "ZeroDivisionError"
  else Except.ok (sigma / sigmaMultiplier)

/-- The candidate pool of one `EvolutionStrategy` generation: the generated
children, extended by the full previous population when `keep_parents` is set
(algorithm.py lines 223-226). -/
def esPool {Ph : Type} (f : Ph → ℚ) (sel : Nat → List (Ind Ph) → Ind Ph)
    (mutate : Nat → Ph → ℚ → Ph) (numChildren : Nat) (sigma : ℚ)
    (keepParents : Bool) (pop : List (Ind Ph)) : List (Ind Ph) :=
  let gen := esGenerateChildren sel mutate f numChildren sigma pop
  if keepParents then gen.1 ++ pop else gen.1

/-- `EvolutionStrategy.evolve_once` (lines 219-240): generate the children,
extend them with the full previous population when `keep_parents` is set, keep
the first `population_size` members of the stable ascending sort as the new
population (assigned through the scoring setter), adapt sigma, then the shared
generation bookkeeping.  Returns the new state together with the new sigma. -/
def esEvolveOnce {Ph : Type} (f : Ph → ℚ) (sel : Nat → List (Ind Ph) → Ind Ph)
    (mutate : Nat → Ph → ℚ → Ph)
    (populationSize numChildren : Nat) (keepParents : Bool)
    (sigmaMultiplier : ℚ) (maxGen : Nat)
    (s : BaseState Ph) (sigma : ℚ) : Except String (BaseState Ph × ℚ) :=
  let gen := esGenerateChildren sel mutate f numChildren sigma s.population
  let pool := if keepParents then gen.1 ++ s.population else gen.1
  let s1 := setPopulation f s ((pySorted pool).take populationSize)
  match adaptSigma numChildren sigmaMultiplier sigma gen.2 with
  | Except.error e => Except.error e
  | Except.ok sigma1 => Except.ok (finishGeneration maxGen s1, sigma1)

/-! ### Concrete instances used by the counterexamples and witnesses -/

/-- A two-member scored population over a trivial phenotype, with the best
individual already tracked. -/
def gaBugState : BaseState Unit :=
  ⟨some ⟨(), 1⟩, some ⟨(), 1⟩, [⟨(), 1⟩, ⟨(), 2⟩], [], [], 0, false⟩

/-- The same shape of state, used for the evolution-strategy counterexample. -/
def esShortState : BaseState Unit :=
  ⟨some ⟨(), 1⟩, some ⟨(), 1⟩, [⟨(), 1⟩, ⟨(), 2⟩], [], [], 0, false⟩

/-- A state whose tracked best has score 2 and whose population is about to be
replaced. -/
def c2State : BaseState Unit :=
  ⟨some ⟨(), 2⟩, none, [], [], [], 0, false⟩

/-- A consistently scored state over phenotype `ℚ` with scoring function
`fun x => x` (each individual's score equals its phenotype). -/
def c5State : BaseState ℚ :=
  ⟨some ⟨1, 1⟩, some ⟨1, 1⟩, [⟨1, 1⟩, ⟨2, 2⟩], [], [], 0, false⟩

/-- A deterministic selector: always the first population member. -/
def c5Sel : Nat → List (Ind ℚ) → Ind ℚ := fun _ pop => pop.headD ⟨0, 0⟩

/-- A deterministic mutator on phenotypes: add one. -/
def c5Mut : Nat → ℚ → ℚ → ℚ := fun _ ph _ => ph + 1

/-- The concrete candidate pool of the evolution-strategy witness generation. -/
def c5Pool : List (Ind ℚ) :=
  esPool (fun x => x) c5Sel c5Mut 1 1 true c5State.population

/-- A consistently scored, unsorted two-member population over phenotype `ℚ`. -/
def c6State : BaseState ℚ :=
  ⟨some ⟨1, 1⟩, some ⟨1, 1⟩, [⟨2, 2⟩, ⟨1, 1⟩], [], [], 0, false⟩

/-- An identity crossover: returns copies of its two parents. -/
def c6Cross : Nat → Ind ℚ → Ind ℚ → Ind ℚ × Ind ℚ := fun _ a b => (a, b)

/-- A phenotype-shifting mutator on individuals. -/
def c6Mut : Nat → Ind ℚ → Ind ℚ := fun _ c => ⟨c.phenotype + 10, c.score⟩

/-- A deterministic selector for the elitism witness: always the first
population member. -/
def c6Sel : Nat → List (Ind ℚ) → Ind ℚ := fun _ pop => pop.headD ⟨0, 0⟩

/-! ### Theorems -/

/-- C8: `BinaryIndividual.create_random(size)` never returns a phenotype of
`size` independent booleans — for every random draw and every size it raises
`TypeError`, because `random.choice` is applied to the generator expression
itself (which has no `len`) instead of to a materialised list.  The code
contradicts the documented boolean-sequence phenotype, so this is a code bug. -/
theorem binary_create_random_fails (rand size : Nat) :
    binaryCreateRandom rand size
      = Except.error "object of type generator has no len()" := rfl

/-- C9 counterexample: equality between two distinct unscored individuals does
*not* fail — both `__eq__` calls return `NotImplemented` and Python's `==`
falls back to object identity, yielding `False`.  This refutes the claim that
every comparison (ordering and equality alike) on unscored individuals fails
with an error. -/
theorem eq_unscored_returns_default :
    pyEq (⟨0, (), none⟩ : CmpInd Unit) ⟨1, (), none⟩ = false := rfl

/-- C7 counterexample: `EvolutionAlgorithm.__init__` only checks
`population_size == 0`, so a *negative* population size is accepted and
construction succeeds — refuting the claim that every non-positive
`population_size` raises a fatal configuration error. -/
theorem init_accepts_negative_population_size :
    isOkB (initAlgorithm (fun _ => ()) (fun _ => (1 : ℚ)) (-1)) = true := rfl

/-- C4 counterexample: with `sigma = 0` and `sigma_multiplier = 2 ≠ 1`, three
successes out of ten children take the multiply branch, and
`sigma * multiplier = 0 * 2 = 0` — the update is a no-op, refuting the claim
that for `sigma_multiplier ≠ 1` the step is never a no-op. -/
theorem adapt_sigma_noop_at_zero_sigma :
    adaptSigma 10 2 0 3 = Except.ok 0 := by with_unfolding_all rfl

/-- C1: evaluating `GeneticAlgorithm.evolve_once` on a concrete instance with
`population_size = 2` and `num_elites = 1` yields a population of **3**
members: `_generate_children` always produces `population_size` children
(which are all mutated) and the elites are appended *on top* of them, so the
population grows to `population_size + num_elites`.  This contradicts the
specified invariant that the resulting population size equals the configured
`population_size`; the unused `non_elites` half of `_split_elites` shows the
intended, size-preserving implementation was not completed — a code bug. -/
theorem ga_population_size_exceeds_config :
    (gaEvolveOnce (fun _ => (1 : ℚ)) (fun _ pop => pop.headD ⟨(), 0⟩)
        (fun _ a b => (a, b)) (fun _ c => c) 2 1 10 gaBugState).population.length
      = 3 := by with_unfolding_all rfl

/-- C5 counterexample: with `keep_parents = False`, `population_size = 2` and
`num_children = 1` (a legal configuration, since the constructor only rejects
`num_children > population_size`), the candidate pool holds a single child and
the new population has 1 member — not the `population_size` best-scoring
candidates the claim promises. -/
theorem es_population_below_config :
    (esEvolveOnce (fun _ => (1 : ℚ)) (fun _ pop => pop.headD ⟨(), 0⟩)
        (fun _ ph _ => ph) 2 1 false 2 10 esShortState 1).map
        (fun p => p.1.population.length)
      = Except.ok 1 := by with_unfolding_all rfl

/-- The population stored by the setter is the scored input population. -/
theorem setPopulation_population {Ph : Type} (f : Ph → ℚ) (s : BaseState Ph)
    (pop : List (Ind Ph)) :
    (setPopulation f s pop).population = pop.map (scoreInd f) := by
  unfold setPopulation
  dsimp only
  split <;> rfl

/-- The generation bookkeeping does not touch `best`. -/
theorem finishGeneration_best {Ph : Type} (maxGen : Nat) (s : BaseState Ph) :
    (finishGeneration maxGen s).best = s.best := by
  unfold finishGeneration
  dsimp only
  split <;> rfl

/-- The generation bookkeeping does not touch the population. -/
theorem finishGeneration_population {Ph : Type} (maxGen : Nat) (s : BaseState Ph) :
    (finishGeneration maxGen s).population = s.population := by
  unfold finishGeneration
  dsimp only
  split <;> rfl

/-- Core property of the population setter: when a best individual is already
tracked, the new best scores no worse, and it changes only to the new current
best and only when that current best scores strictly better. -/
theorem setPopulation_best_mono {Ph : Type} (f : Ph → ℚ) (s : BaseState Ph)
    (pop : List (Ind Ph)) (b : Ind Ph) (hb : s.best = some b) :
    ∀ b', (setPopulation f s pop).best = some b' →
      b'.score ≤ b.score ∧
        (b' = b ∨ ((setPopulation f s pop).currentBest = some b' ∧ b'.score < b.score)) := by
  intro b' h
  unfold setPopulation at h
  dsimp only at h
  cases hmin : pyMin (List.map (scoreInd f) pop) with
  | none =>
    rw [hmin] at h
    dsimp only at h
    rw [hb] at h
    cases h
    exact ⟨le_refl _, Or.inl rfl⟩
  | some cb =>
    rw [hmin] at h
    dsimp only at h
    rw [hb] at h
    dsimp only at h
    by_cases hcb : cb.score < b.score
    · rw [if_pos hcb] at h
      cases h
      refine ⟨le_of_lt hcb, Or.inr ⟨?_, hcb⟩⟩
      unfold setPopulation
      dsimp only
      rw [hmin]
    · rw [if_neg hcb] at h
      cases h
      exact ⟨le_refl _, Or.inl rfl⟩

/-- C2: for both strategies and every run, the tracked best score is
non-increasing from generation to generation, and the stored best individual,
once set, is replaced only when the new population's current best has a
strictly smaller score.  Part 1 states the replacement rule of the population
setter (the only place `best` is ever written); parts 2 and 3 state the
monotonicity across one generation of `GeneticAlgorithm.evolve_once` and
`EvolutionStrategy.evolve_once` respectively, which yields monotonicity over
any run by induction over its generations. -/
theorem best_score_monotone {Ph : Type} (f : Ph → ℚ) (s : BaseState Ph)
    (b : Ind Ph) (hb : s.best = some b) :
    (∀ pop b', (setPopulation f s pop).best = some b' →
        b'.score ≤ b.score ∧
          (b' = b ∨ ((setPopulation f s pop).currentBest = some b' ∧ b'.score < b.score)))
    ∧ (∀ sel cross mutate ps k maxGen b',
        (gaEvolveOnce f sel cross mutate ps k maxGen s).best = some b' →
          b'.score ≤ b.score)
    ∧ (∀ sel mutate ps nc kp m maxGen sigma out,
        esEvolveOnce f sel mutate ps nc kp m maxGen s sigma = Except.ok out →
          ∀ b', out.1.best = some b' → b'.score ≤ b.score) := by
  refine ⟨fun pop b' h => setPopulation_best_mono f s pop b hb b' h, ?_, ?_⟩
  · intro sel cross mutate ps k maxGen b' h
    unfold gaEvolveOnce at h
    dsimp only at h
    rw [finishGeneration_best] at h
    exact (setPopulation_best_mono f s _ b hb b' h).1
  · intro sel mutate ps nc kp m maxGen sigma out h b' hB
    unfold esEvolveOnce at h
    dsimp only at h
    cases hAd : adaptSigma nc m sigma
        (esGenerateChildren sel mutate f nc sigma s.population).2 with
    | error e => rw [hAd] at h; cases h
    | ok sigma1 =>
      rw [hAd] at h
      cases h
      rw [finishGeneration_best] at hB
      exact (setPopulation_best_mono f s _ b hb b' hB).1

/-- C2 witness: the setter replaces a tracked best of score 2 by the new
current best of score 1 (the instantiated conclusion of
`best_score_monotone`). -/
theorem best_score_monotone_witness :
    (⟨(), 1⟩ : Ind Unit).score ≤ (⟨(), 2⟩ : Ind Unit).score ∧
      ((⟨(), 1⟩ : Ind Unit) = ⟨(), 2⟩ ∨
        ((setPopulation (fun _ => (1 : ℚ)) c2State [⟨(), 5⟩]).currentBest
            = some ⟨(), 1⟩ ∧
          (⟨(), 1⟩ : Ind Unit).score < (⟨(), 2⟩ : Ind Unit).score)) :=
  (best_score_monotone (fun _ => (1 : ℚ)) c2State ⟨(), 2⟩ rfl).1
    [⟨(), 5⟩] ⟨(), 1⟩ (by with_unfolding_all rfl)

/-- C3: the initial population built at construction always has exactly 300
members — the literal `range(300)` in `EvolutionAlgorithm.__init__` — for
every accepted `population_size`, so any two valid configurations differing
only in `population_size` get initial populations of the same (fixed) size. -/
theorem initial_population_size_fixed {Ph : Type} (create : Nat → Ph)
    (f : Ph → ℚ) (ps : Int) (h : ps ≠ 0) :
    (initAlgorithm create f ps).map (fun s => s.population.length)
      = Except.ok 300 := by
  unfold initAlgorithm
  rw [if_neg h]
  simp [Except.map, setPopulation_population]

/-- C3 witness: a configuration with `population_size = 5` still gets an
initial population of 300 individuals. -/
theorem initial_population_size_fixed_witness :
    (initAlgorithm (fun _ => ()) (fun _ => (0 : ℚ)) 5).map
        (fun s => s.population.length)
      = Except.ok 300 :=
  initial_population_size_fixed _ _ 5 (by decide)

/-- C7 (amended): the base constructor rejects exactly `population_size == 0`
(in particular negative sizes are accepted, hence the `↔`), and the
`EvolutionStrategy` constructor fails whenever `num_children >
population_size`, before any evolution can proceed. -/
theorem construction_validation {Ph : Type} (create : Nat → Ph) (f : Ph → ℚ) :
    (∀ ps : Int, isOkB (initAlgorithm create f ps) = false ↔ ps = 0)
    ∧ (∀ (ps nc : Int) (sigmaStart : ℚ), ps < nc →
        isOkB (initEvolutionStrategy create f ps nc sigmaStart) = false) := by
  constructor
  · intro ps
    unfold initAlgorithm
    by_cases h : ps = 0 <;> simp [h, isOkB]
  · intro ps nc sigmaStart h
    unfold initEvolutionStrategy
    rw [if_pos h]
    rfl

/-- C7 witness: `population_size = 0` is rejected, and `num_children = 2 >
population_size = 1` is rejected. -/
theorem construction_validation_witness :
    (isOkB (initAlgorithm (fun _ => ()) (fun _ => (0 : ℚ)) 0) = false ↔ (0 : Int) = 0)
    ∧ isOkB (initEvolutionStrategy (fun _ => ()) (fun _ => (0 : ℚ)) 1 2 1) = false :=
  ⟨(construction_validation _ _).1 0,
    (construction_validation _ _).2 1 2 1 (by decide)⟩

/-- C4 (amended): every `_adapt_sigma` call takes exactly one of the two
branches — multiply by the multiplier when the success count exceeds
`num_children / 5` (stated as the equivalent integer comparison
`5 * num_success > num_children`), divide by it otherwise — and for
`sigma ≠ 0` and a multiplier outside `{0, 1}` the step is never a no-op
(with multiplier `0` the divide branch raises `ZeroDivisionError` instead). -/
theorem adapt_sigma_strict_update (nc : Nat) (m sigma : ℚ) (ns : Nat)
    (hs : sigma ≠ 0) (hm0 : m ≠ 0) (hm1 : m ≠ 1) :
    (5 * ns > nc →
      adaptSigma nc m sigma ns = Except.ok (sigma * m) ∧ sigma * m ≠ sigma)
    ∧ (5 * ns ≤ nc →
      adaptSigma nc m sigma ns = Except.ok (sigma / m) ∧ sigma / m ≠ sigma) := by
  have key : ((ns : ℚ) > 1 / 5 * (nc : ℚ)) ↔ 5 * ns > nc := by
    rw [gt_iff_lt, show (1 : ℚ) / 5 * (nc : ℚ) = (nc : ℚ) / 5 by ring,
      div_lt_iff₀ (by norm_num : (0 : ℚ) < 5)]
    constructor
    · intro hlt
      have h2 : (nc : ℚ) < ((5 * ns : ℕ) : ℚ) := by push_cast; linarith
      exact_mod_cast h2
    · intro hgt
      have h2 : ((nc : ℕ) : ℚ) < ((5 * ns : ℕ) : ℚ) := by exact_mod_cast hgt
      push_cast at h2
      linarith
  constructor
  · intro h5
    unfold adaptSigma
    rw [if_pos (key.mpr h5)]
    refine ⟨rfl, fun hEq => hm1 ?_⟩
    exact mul_left_cancel₀ hs (hEq.trans (mul_one sigma).symm)
  · intro h5
    unfold adaptSigma
    rw [if_neg (by rw [key]; omega), if_neg hm0]
    refine ⟨rfl, fun hEq => hm1 ?_⟩
    have h1 : sigma = sigma * m := (div_eq_iff hm0).mp hEq
    exact (mul_left_cancel₀ hs ((mul_one sigma).trans h1)).symm

/-- C4 witness: 3 successes out of 10 children (so `5·3 > 10`) with
`sigma = 1` and multiplier `2` take the multiply branch, and the update is
strict. -/
theorem adapt_sigma_strict_update_witness :
    5 * 3 > 10 ∧
      (adaptSigma 10 2 1 3 = Except.ok (1 * 2) ∧ (1 : ℚ) * 2 ≠ 1) :=
  ⟨by decide,
    (adapt_sigma_strict_update 10 2 1 3 (by norm_num) (by norm_num)
      (by norm_num)).1 (by decide)⟩

/-- C9 (amended): when at least one of two individuals is unscored, every
*ordering* comparison (`<`, `>`, `<=`, `>=`) fails with a `TypeError` (both the
direct and the reflected method return `NotImplemented`), but *equality* does
not fail — Python's `==` falls back to object identity. -/
theorem unscored_comparisons {Ph : Type} (a b : CmpInd Ph)
    (h : a.score = none ∨ b.score = none) :
    isOkB (pyLt a b) = false ∧ isOkB (pyGtOp a b) = false
    ∧ isOkB (pyLeOp a b) = false ∧ isOkB (pyGeOp a b) = false
    ∧ pyEq a b = decide (a.oid = b.oid) := by
  rcases hA : a.score with _ | x <;> rcases hB : b.score with _ | y <;>
    simp_all [pyLt, pyGtOp, pyLeOp, pyGeOp, pyEq, indLt, indGt, indLe, indGe,
      indEq, isOkB]

/-- C9 witness: a concrete unscored individual compared against a scored one —
all four ordering operators error out and equality reduces to the identity
test. -/
theorem unscored_comparisons_witness :
    isOkB (pyLt (⟨0, (), none⟩ : CmpInd Unit) ⟨1, (), some 1⟩) = false
    ∧ isOkB (pyGtOp (⟨0, (), none⟩ : CmpInd Unit) ⟨1, (), some 1⟩) = false
    ∧ isOkB (pyLeOp (⟨0, (), none⟩ : CmpInd Unit) ⟨1, (), some 1⟩) = false
    ∧ isOkB (pyGeOp (⟨0, (), none⟩ : CmpInd Unit) ⟨1, (), some 1⟩) = false
    ∧ pyEq (⟨0, (), none⟩ : CmpInd Unit) ⟨1, (), some 1⟩
        = decide ((0 : Nat) = 1) :=
  unscored_comparisons _ _ (Or.inl rfl)

/-- The generic aliasing fact behind C10: the clone lives at a fresh address,
so writing an element through the clone leaves the source phenotype intact. -/
theorem cloneInd_write_indep {α : Type} (st : Store α) (r : Ref) (i : Nat)
    (v : α) (h : r.addr < st.length) :
    (cloneInd st r).2.addr ≠ r.addr
    ∧ readPh (setElem (cloneInd st r).1 (cloneInd st r).2 i v) r
        = readPh st r := by
  constructor
  · show st.length ≠ r.addr
    omega
  · unfold setElem readPh cloneInd
    dsimp only
    rw [List.getD_eq_getElem?_getD, List.getD_eq_getElem?_getD,
      List.getElem?_set_ne (by omega : st.length ≠ r.addr),
      List.getElem?_append_left h, List.getD_eq_getElem?_getD]

/-- C10: for every individual variant (boolean-sequence, permutation,
real-valued), `clone()` returns an independent copy — assigning to an element
of the clone's phenotype leaves the source individual's phenotype unchanged
(all three `clone` implementations copy the phenotype list with
`self.phenotype[:]` into a freshly allocated object). -/
theorem clone_independent :
    (∀ (st : Store Bool) (r : Ref) (i : Nat) (v : Bool), r.addr < st.length →
      (binaryClone st r).2.addr ≠ r.addr
      ∧ readPh (setElem (binaryClone st r).1 (binaryClone st r).2 i v) r
          = readPh st r)
    ∧ (∀ (st : Store Int) (r : Ref) (i : Nat) (v : Int), r.addr < st.length →
      (pathClone st r).2.addr ≠ r.addr
      ∧ readPh (setElem (pathClone st r).1 (pathClone st r).2 i v) r
          = readPh st r)
    ∧ (∀ (st : Store ℚ) (r : Ref) (i : Nat) (v : ℚ), r.addr < st.length →
      (realValueClone st r).2.addr ≠ r.addr
      ∧ readPh (setElem (realValueClone st r).1 (realValueClone st r).2 i v) r
          = readPh st r) :=
  ⟨fun st r i v h => cloneInd_write_indep st r i v h,
    fun st r i v h => cloneInd_write_indep st r i v h,
    fun st r i v h => cloneInd_write_indep st r i v h⟩

/-- C10 witness: cloning a concrete boolean phenotype `[true, false]` and
overwriting the clone's first element leaves the source list unchanged. -/
theorem clone_independent_witness :
    (binaryClone [[true, false]] ⟨0⟩).2.addr ≠ Ref.addr ⟨0⟩
    ∧ readPh (setElem (binaryClone [[true, false]] ⟨0⟩).1
          (binaryClone [[true, false]] ⟨0⟩).2 0 false) ⟨0⟩
        = readPh [[true, false]] ⟨0⟩ :=
  clone_independent.1 [[true, false]] ⟨0⟩ 0 false (by decide)

/-- The sort key is transitive. -/
theorem scoreLE_trans {Ph : Type} :
    ∀ (a b c : Ind Ph), scoreLE a b → scoreLE b c → scoreLE a c := by
  intro a b c hab hbc
  simp only [scoreLE, decide_eq_true_eq] at *
  exact le_trans hab hbc

/-- The sort key is total. -/
theorem scoreLE_total {Ph : Type} :
    ∀ (a b : Ind Ph), scoreLE a b || scoreLE b a := by
  intro a b
  simp only [scoreLE, Bool.or_eq_true, decide_eq_true_eq]
  exact le_total _ _

/-- `sorted(population)` is ascending in score. -/
theorem pySorted_pairwise {Ph : Type} (l : List (Ind Ph)) :
    (pySorted l).Pairwise (fun a b => a.score ≤ b.score) := by
  have h := List.sorted_mergeSort scoreLE_trans scoreLE_total l
  exact h.imp (fun hab => by simpa [scoreLE] using hab)

/-- Sorting neither adds nor removes members. -/
theorem mem_pySorted {Ph : Type} {x : Ind Ph} {l : List (Ind Ph)} :
    x ∈ pySorted l ↔ x ∈ l :=
  List.mem_mergeSort

/-- Re-scoring a consistently scored list is the identity. -/
theorem map_scoreInd_id {Ph : Type} (f : Ph → ℚ) (l : List (Ind Ph))
    (h : ∀ x ∈ l, x.score = f x.phenotype) : l.map (scoreInd f) = l := by
  induction l with
  | nil => rfl
  | cons x xs ih =>
    simp only [List.map_cons]
    rw [ih (fun y hy => h y (List.mem_cons_of_mem _ hy))]
    have hx := h x (List.mem_cons_self _ _)
    show scoreInd f x :: xs = x :: xs
    unfold scoreInd
    rw [← hx]

/-- The elites are the `num_elites` first members of the sorted population,
also when `num_elites = 0`. -/
theorem splitElites_fst {Ph : Type} (k : Nat) (pop : List (Ind Ph)) :
    (splitElites k pop).1 = (pySorted pop).take k := by
  unfold splitElites
  by_cases h : k = 0 <;> simp [h]

/-- Every elite scores no worse than every non-elite. -/
theorem splitElites_cross {Ph : Type} (k : Nat) (pop : List (Ind Ph)) :
    ∀ e ∈ (splitElites k pop).1, ∀ x ∈ (splitElites k pop).2,
      e.score ≤ x.score := by
  by_cases h : k = 0
  · subst h
    intro e he
    simp [splitElites] at he
  · unfold splitElites
    rw [if_neg h]
    dsimp only
    intro e he x hx
    have hp2 : ((pySorted pop).take k ++ (pySorted pop).drop k).Pairwise
        (fun a b : Ind Ph => a.score ≤ b.score) := by
      rw [List.take_append_drop]
      exact pySorted_pairwise pop
    exact (List.pairwise_append.mp hp2).2.2 e he x hx

/-- C6: for `num_elites = k`, the `k` best-scoring individuals of the current
population (the first `k` of the stable ascending sort) reappear verbatim —
same phenotype, same score — in the population produced by
`GeneticAlgorithm.evolve_once`, appended after the mutated children and never
passed to the mutator; they score no worse than every non-elite.  The
hypothesis says the current population is consistently scored, which the
scoring setter guarantees on every population it stores. -/
theorem ga_elites_preserved {Ph : Type} (f : Ph → ℚ)
    (sel : Nat → List (Ind Ph) → Ind Ph)
    (cross : Nat → Ind Ph → Ind Ph → Ind Ph × Ind Ph)
    (mutate : Nat → Ind Ph → Ind Ph) (ps k maxGen : Nat) (s : BaseState Ph)
    (hscored : ∀ x ∈ s.population, x.score = f x.phenotype) :
    (splitElites k s.population).1 = (pySorted s.population).take k
    ∧ (gaEvolveOnce f sel cross mutate ps k maxGen s).population
        = (mapI mutate 0 (generateChildren sel cross ps s.population)).map
            (scoreInd f)
          ++ (splitElites k s.population).1
    ∧ (∀ e ∈ (splitElites k s.population).1,
        e ∈ (gaEvolveOnce f sel cross mutate ps k maxGen s).population)
    ∧ (∀ e ∈ (splitElites k s.population).1,
        ∀ x ∈ (splitElites k s.population).2, e.score ≤ x.score) := by
  have hElites : ∀ e ∈ (splitElites k s.population).1,
      e.score = f e.phenotype := by
    intro e he
    rw [splitElites_fst] at he
    exact hscored e (mem_pySorted.mp (List.mem_of_mem_take he))
  have hpop : (gaEvolveOnce f sel cross mutate ps k maxGen s).population
      = (mapI mutate 0 (generateChildren sel cross ps s.population)).map
          (scoreInd f)
        ++ (splitElites k s.population).1 := by
    unfold gaEvolveOnce
    dsimp only
    rw [finishGeneration_population, setPopulation_population, List.map_append,
      map_scoreInd_id f _ hElites]
  refine ⟨splitElites_fst k s.population, hpop, ?_,
    splitElites_cross k s.population⟩
  intro e he
  rw [hpop]
  exact List.mem_append_right _ he

/-- C6 witness: a concrete unsorted two-member population with one elite — the
elite `⟨1, 1⟩` is the head of the sorted population and reappears verbatim
after the mutated children. -/
theorem ga_elites_preserved_witness :
    (splitElites 1 c6State.population).1 = (pySorted c6State.population).take 1
    ∧ (gaEvolveOnce (fun x => x) c6Sel c6Cross c6Mut 2 1 10 c6State).population
        = (mapI c6Mut 0 (generateChildren c6Sel c6Cross 2 c6State.population)).map
            (scoreInd (fun x => x))
          ++ (splitElites 1 c6State.population).1 :=
  ⟨(ga_elites_preserved (fun x => x) c6Sel c6Cross c6Mut 2 1 10 c6State
      (by decide)).1,
    (ga_elites_preserved (fun x => x) c6Sel c6Cross c6Mut 2 1 10 c6State
      (by decide)).2.1⟩

/-- Every child generated by `EvolutionStrategy._generate_children` carries the
score the `Problem` assigns to its phenotype. -/
theorem esGenerateChildren_scored {Ph : Type}
    (sel : Nat → List (Ind Ph) → Ind Ph) (mutate : Nat → Ph → ℚ → Ph)
    (f : Ph → ℚ) (nc : Nat) (sigma : ℚ) (pop : List (Ind Ph)) :
    ∀ x ∈ (esGenerateChildren sel mutate f nc sigma pop).1,
      x.score = f x.phenotype := by
  have key : ∀ (ys : List Nat) (acc : List (Ind Ph) × Nat),
      (∀ x ∈ acc.1, x.score = f x.phenotype) →
      ∀ x ∈ (ys.foldl
          (fun acc i =>
            let parent := sel i pop
            let childPh := mutate i parent.phenotype sigma
            let child : Ind Ph := ⟨childPh, f childPh⟩
            (acc.1 ++ [child],
              if child.score < parent.score then acc.2 + 1 else acc.2)) acc).1,
        x.score = f x.phenotype := by
    intro ys
    induction ys with
    | nil => intro acc hacc; simpa using hacc
    | cons i ys ih =>
      intro acc hacc
      rw [List.foldl_cons]
      apply ih
      intro x hx
      dsimp only at hx
      rw [List.mem_append] at hx
      rcases hx with hx | hx
      · exact hacc x hx
      · rw [List.mem_singleton] at hx
        subst hx
        rfl
  exact key (List.range nc) ([], 0) (by intro x hx; cases hx)

/-- Every member of the candidate pool of one `EvolutionStrategy` generation is
consistently scored, provided the previous population is. -/
theorem esPool_scored {Ph : Type} (f : Ph → ℚ)
    (sel : Nat → List (Ind Ph) → Ind Ph) (mutate : Nat → Ph → ℚ → Ph)
    (nc : Nat) (sigma : ℚ) (kp : Bool) (pop : List (Ind Ph))
    (hscored : ∀ x ∈ pop, x.score = f x.phenotype) :
    ∀ x ∈ esPool f sel mutate nc sigma kp pop, x.score = f x.phenotype := by
  intro x hx
  unfold esPool at hx
  dsimp only at hx
  cases kp with
  | false =>
    simp only [if_neg Bool.false_ne_true] at hx
    exact esGenerateChildren_scored sel mutate f nc sigma pop x hx
  | true =>
    simp only [if_pos rfl] at hx
    rcases List.mem_append.mp hx with hx | hx
    · exact esGenerateChildren_scored sel mutate f nc sigma pop x hx
    · exact hscored x hx

/-- C5 (amended): after every `EvolutionStrategy` generation the new population
is the `min(population_size, pool size)` best-scoring candidates of the
candidate pool — the generated children, plus the full previous population
when `keep_parents` is true — obtained as the `population_size`-prefix of the
stable ascending sort on score: it is sorted, every member scores no worse
than every discarded candidate, together with the discarded candidates it is a
permutation of the pool, and the sort is stable (score-ordered pairs keep
their relative order).  When `keep_parents` is false and
`num_children < population_size` the pool is smaller than `population_size`,
so the new population has only `pool size` members — this is where the
original claim fails. -/
theorem es_truncation_selection {Ph : Type} (f : Ph → ℚ)
    (sel : Nat → List (Ind Ph) → Ind Ph) (mutate : Nat → Ph → ℚ → Ph)
    (ps nc : Nat) (kp : Bool) (m : ℚ) (maxGen : Nat) (s : BaseState Ph)
    (sigma : ℚ) (popNew : List (Ind Ph))
    (h : (esEvolveOnce f sel mutate ps nc kp m maxGen s sigma).map
        (fun p => p.1.population) = Except.ok popNew)
    (hscored : ∀ x ∈ s.population, x.score = f x.phenotype) :
    popNew = (pySorted (esPool f sel mutate nc sigma kp s.population)).take ps
    ∧ popNew.length = min ps (esPool f sel mutate nc sigma kp s.population).length
    ∧ popNew.Pairwise (fun a b => a.score ≤ b.score)
    ∧ (∀ x ∈ popNew,
        ∀ y ∈ (pySorted (esPool f sel mutate nc sigma kp s.population)).drop ps,
          x.score ≤ y.score)
    ∧ (popNew
        ++ (pySorted (esPool f sel mutate nc sigma kp s.population)).drop ps).Perm
        (esPool f sel mutate nc sigma kp s.population)
    ∧ (∀ a b : Ind Ph,
        [a, b].Sublist (esPool f sel mutate nc sigma kp s.population) →
        scoreLE a b →
        [a, b].Sublist (pySorted (esPool f sel mutate nc sigma kp s.population))) := by
  have hPoolScored := esPool_scored f sel mutate nc sigma kp s.population hscored
  have hPopNew : popNew
      = (pySorted (esPool f sel mutate nc sigma kp s.population)).take ps := by
    unfold esEvolveOnce at h
    dsimp only at h
    cases hAd : adaptSigma nc m sigma
        (esGenerateChildren sel mutate f nc sigma s.population).2 with
    | error e =>
      rw [hAd] at h
      simp only [Except.map] at h
      cases h
    | ok sigma1 =>
      rw [hAd] at h
      simp only [Except.map] at h
      cases h
      rw [finishGeneration_population, setPopulation_population]
      exact map_scoreInd_id f _ (fun x hx =>
        hPoolScored x (mem_pySorted.mp (List.mem_of_mem_take hx)))
  have hCross : ∀ x ∈ popNew,
      ∀ y ∈ (pySorted (esPool f sel mutate nc sigma kp s.population)).drop ps,
        x.score ≤ y.score := by
    rw [hPopNew]
    intro x hx y hy
    have hp2 : ((pySorted (esPool f sel mutate nc sigma kp s.population)).take ps
        ++ (pySorted (esPool f sel mutate nc sigma kp s.population)).drop ps).Pairwise
        (fun a b : Ind Ph => a.score ≤ b.score) := by
      rw [List.take_append_drop]
      exact pySorted_pairwise _
    exact (List.pairwise_append.mp hp2).2.2 x hx y hy
  refine ⟨hPopNew, ?_, ?_, hCross, ?_, ?_⟩
  · rw [hPopNew, List.length_take]
    unfold pySorted
    rw [List.length_mergeSort]
  · rw [hPopNew]
    exact (pySorted_pairwise _).sublist (List.take_sublist _ _)
  · rw [hPopNew, List.take_append_drop]
    exact List.mergeSort_perm _ _
  · intro a b hab hle
    exact List.pair_sublist_mergeSort scoreLE_trans scoreLE_total hle hab

/-- C5 witness: a concrete `(μ+λ)` generation with `population_size = 2`,
`num_children = 1` and `keep_parents = true` — the new population is the
2-prefix of the sorted 3-member pool. -/
theorem es_truncation_selection_witness :
    ([⟨1, 1⟩, ⟨2, 2⟩] : List (Ind ℚ)) = (pySorted c5Pool).take 2
    ∧ ([⟨1, 1⟩, ⟨2, 2⟩] : List (Ind ℚ)).length = min 2 c5Pool.length :=
  ⟨(es_truncation_selection (fun x => x) c5Sel c5Mut 2 1 true 2 10 c5State 1
      [⟨1, 1⟩, ⟨2, 2⟩] (by with_unfolding_all rfl) (by decide)).1,
    (es_truncation_selection (fun x => x) c5Sel c5Mut 2 1 true 2 10 c5State 1
      [⟨1, 1⟩, ⟨2, 2⟩] (by with_unfolding_all rfl) (by decide)).2.1⟩

end Pythovolve
